import Mathlib

/-!
# Verification of the TaxHelpAIBot document-understanding and tax-calculation core

This file gives a shallow embedding in Lean 4 of the core logic of the
TaxHelpAIBot repository (files `tax_engine.py`, `classifier.py`,
`extractor.py`, `qa.py`) and proves properties of it.

Modelling conventions:
* Python floats are modelled as exact rationals (`ℚ`); decimal literals of the
  source become the corresponding exact rationals.
* Python `round(x, 2)` is modelled as round-half-to-even at two decimal
  places over `ℚ` (`pyRound2`).
* Python dicts are modelled either as association lists (when the code
  iterates over items) or as functions into `Option` (when the code only
  looks keys up).
* Machine strings are Lean `String`s; `str.lower()` is `pyLower`
  (character-wise `Char.toLower`, exact on the ASCII fragment the
  keyword tables and option lists use).

The file is organised as: all definitions first, then all theorems.
-/

namespace TaxHelp

/-! ## Shared arithmetic helpers -/

/-- Round-half-to-even to the nearest integer, the tie-breaking rule of
Python's built-in `round`. -/
def roundHalfEven (x : ℚ) : ℤ :=
  if x - ⌊x⌋ < 1/2 then ⌊x⌋
  else if 1/2 < x - ⌊x⌋ then ⌊x⌋ + 1
  else if ⌊x⌋ % 2 = 0 then ⌊x⌋ else ⌊x⌋ + 1

/-- Model of Python `round(x, 2)` on exact rationals. -/
def pyRound2 (x : ℚ) : ℚ := (roundHalfEven (x * 100) : ℚ) / 100

/-- Python's `s.startswith(pre)` as a character-list prefix test. Lean's
own `String.startsWith` is not used because its implementation does not
reduce inside the kernel. -/
def pyStartsWith (s pre : String) : Bool := decide (pre.toList <+: s.toList)

/-! ## `tax_engine.py` — `TaxEngine` -/

/-- One row of a federal bracket table: `(lower, upper, rate)`.
`hi = none` models Python's `float('inf')` upper bound. -/
structure Bracket where
  lo : ℚ
  hi : Option ℚ
  rate : ℚ
deriving Repr, DecidableEq

/-- `TaxEngine.federal_brackets['single']` (2023 single-filer table). -/
def bracketsSingle : List Bracket :=
  [ ⟨0, some 11000, 1/10⟩,
    ⟨11000, some 44725, 12/100⟩,
    ⟨44725, some 95375, 22/100⟩,
    ⟨95375, some 182100, 24/100⟩,
    ⟨182100, some 231250, 32/100⟩,
    ⟨231250, some 578125, 35/100⟩,
    ⟨578125, none, 37/100⟩ ]

/-- `TaxEngine.federal_brackets['married_filing_jointly']`. -/
def bracketsMFJ : List Bracket :=
  [ ⟨0, some 22000, 1/10⟩,
    ⟨22000, some 89450, 12/100⟩,
    ⟨89450, some 190750, 22/100⟩,
    ⟨190750, some 364200, 24/100⟩,
    ⟨364200, some 462500, 32/100⟩,
    ⟨462500, some 693750, 35/100⟩,
    ⟨693750, none, 37/100⟩ ]

/-- The `TaxEngine.federal_brackets` dict as a partial lookup. -/
def federalBrackets (fs : String) : Option (List Bracket) :=
  if fs = "single" then some bracketsSingle
  else if fs = "married_filing_jointly" then some bracketsMFJ
  else none

/-- The `TaxEngine.standard_deduction` dict as a partial lookup. -/
def standardDeductionTable (fs : String) : Option ℚ :=
  if fs = "single" then some 13850
  else if fs = "married_filing_jointly" then some 27700
  else none

/-- `taxable_in_bracket = min(taxable_income - min_income, max_income - min_income)`;
with an infinite upper bound the `min` resolves to the first argument. -/
def taxableInBracket (inc : ℚ) (b : Bracket) : ℚ :=
  match b.hi with
  | none => inc - b.lo
  | some h => min (inc - b.lo) (h - b.lo)

/-- The accumulation loop of `TaxEngine._calculate_progressive_tax`:
add `taxable_in_bracket * rate` while `taxable_income > min_income`,
`break` at the first bracket whose lower bound is not exceeded. -/
def bracketLoop (inc : ℚ) : List Bracket → ℚ
  | [] => 0
  | b :: rest =>
    if b.lo < inc then taxableInBracket inc b * b.rate + bracketLoop inc rest
    else 0

/-- `TaxEngine._calculate_progressive_tax`: run the bracket loop over
`federal_brackets.get(filing_status, federal_brackets['single'])` and
`round(tax_owed, 2)`. -/
def calculateProgressiveTax (inc : ℚ) (fs : String) : ℚ :=
  pyRound2 (bracketLoop inc ((federalBrackets fs).getD bracketsSingle))

/-- The per-document record seen by the tax engine: the optional `'data'`
entry maps field names to numeric values (the engine only reads numeric
fields, with default `0`). -/
structure DocData where
  data : Option (String → Option ℚ)

/-- The calculation input bundle `{extracted_data, user_answers}`.
`extracted_data` is the dict's item list in iteration order;
`user_answers` is looked up by the engine only at `'filing_status'`. -/
structure TaxInput where
  extracted_data : List (String × DocData)
  user_answers : String → Option String

/-- Sum `doc_data['data'].get(field, 0)` over the documents whose type
satisfies `p` and which have a `'data'` entry. -/
def sumField (eds : List (String × DocData)) (p : String → Bool) (field : String) : ℚ :=
  (eds.map (fun e =>
    if p e.1 then
      match e.2.data with
      | some d => (d field).getD 0
      | none => 0
    else 0)).sum

/-- Result dict of `TaxEngine.calculate_federal_tax`. -/
structure FederalResult where
  taxable_income : ℚ
  tax_owed : ℚ
  withheld : ℚ
  refund : ℚ
  amount_due : ℚ
deriving Repr

/-- `TaxEngine.calculate_federal_tax`. -/
def calculateFederalTax (ti : TaxInput) : FederalResult :=
  let filing_status := (ti.user_answers "filing_status").getD "single"
  let total_wages := sumField ti.extracted_data (· = "w2") "wages_tips_other_comp"
  let total_withheld := sumField ti.extracted_data (· = "w2") "federal_income_tax_withheld"
  let taxable_income := max 0 (total_wages - (standardDeductionTable filing_status).getD 0)
  let tax_owed := calculateProgressiveTax taxable_income filing_status
  let rd := if tax_owed < total_withheld then (total_withheld - tax_owed, (0 : ℚ))
            else ((0 : ℚ), tax_owed - total_withheld)
  { taxable_income := taxable_income
    tax_owed := tax_owed
    withheld := total_withheld
    refund := pyRound2 rd.1
    amount_due := pyRound2 rd.2 }

/-- Result dict of `TaxEngine.calculate_self_employment_tax`; the
`additional_medicare_tax` key is absent from the all-zero early return,
hence optional here. -/
structure SEResult where
  total_income : ℚ
  social_security_tax : ℚ
  medicare_tax : ℚ
  additional_medicare_tax : Option ℚ
  total_tax : ℚ
deriving Repr

/-- Sum of `data.get('nonemployee_compensation', 0)` over documents whose
type starts with `'1099'` and which have a `'data'` entry. -/
def total1099Income (eds : List (String × DocData)) : ℚ :=
  sumField eds (pyStartsWith · "1099") "nonemployee_compensation"

/-- `TaxEngine.calculate_self_employment_tax`. -/
def calculateSelfEmploymentTax (ti : TaxInput) : SEResult :=
  let t := total1099Income ti.extracted_data
  if t = 0 then
    { total_income := 0, social_security_tax := 0, medicare_tax := 0
      additional_medicare_tax := none, total_tax := 0 }
  else
    let social_security_base := min (t * (9235/10000)) 160200
    let social_security_tax := social_security_base * (124/1000)
    let medicare_tax := t * (29/1000)
    let additional_medicare_tax := if 200000 < t then (t - 200000) * (9/1000) else 0
    { total_income := pyRound2 t
      social_security_tax := pyRound2 social_security_tax
      medicare_tax := pyRound2 medicare_tax
      additional_medicare_tax := some (pyRound2 additional_medicare_tax)
      total_tax := pyRound2 (social_security_tax + medicare_tax + additional_medicare_tax) }

/-! ### The claimed bracket-sum formula (spec side, for claim C1) -/

/-- The bracket formula exactly as claim C1 states it: the sum over all
brackets whose lower bound is strictly below the income of
`(min(taxable_income, upper) - lower) * rate` (an infinite upper bound
contributes `taxable_income` to the `min`). -/
def claimBracketSum (inc : ℚ) (bs : List Bracket) : ℚ :=
  (bs.map (fun b =>
    if b.lo < inc then
      ((match b.hi with | none => inc | some h => min inc h) - b.lo) * b.rate
    else 0)).sum

/-! ### Concrete inputs used in counterexamples and witnesses -/

/-- A bundle with one W-2 whose only field is a sub-cent federal
withholding of `0.001`; wages are absent (read as `0`). -/
def c4Input : TaxInput :=
  { extracted_data :=
      [("w2", ⟨some (fun k => if k = "federal_income_tax_withheld" then some (1/1000) else none)⟩)]
    user_answers := fun _ => none }

/-- The spec's end-to-end scenario: one W-2, wages 60000, withheld 9000,
filing status `single`. -/
def scenarioInput : TaxInput :=
  { extracted_data :=
      [("w2", ⟨some (fun k =>
        if k = "wages_tips_other_comp" then some 60000
        else if k = "federal_income_tax_withheld" then some 9000
        else none)⟩)]
    user_answers := fun k => if k = "filing_status" then some "single" else none }

/-- A bundle with a W-2 (numeric fields all 5) and a `1099-nec` record
that has no `'data'` entry, so no 1099 record carries
`nonemployee_compensation`. -/
def no1099IncomeInput : TaxInput :=
  { extracted_data := [("w2", ⟨some (fun _ => some 5)⟩), ("1099-nec", ⟨none⟩)]
    user_answers := fun _ => none }

/-- A bundle with filing status `head_of_household` (accepted by the
questionnaire, absent from the engine's tables) and one W-2 with wages
1000. -/
def hohInput : TaxInput :=
  { extracted_data :=
      [("w2", ⟨some (fun k => if k = "wages_tips_other_comp" then some 1000 else none)⟩)]
    user_answers := fun k => if k = "filing_status" then some "head_of_household" else none }

/-! ## `classifier.py` — `DocumentClassifier` -/

/-- `str.lower()` (character-wise, exact on ASCII). Lean's own
`String.toLower` is not used because its implementation does not reduce
inside the kernel. -/
def pyLower (s : String) : String := ⟨s.data.map Char.toLower⟩

/-- Python's `needle in hay` substring test on strings. -/
def pyIn (needle hay : String) : Bool := decide (needle.toList <:+: hay.toList)

/-- The declaration order of the `DocumentClassifier.keywords` dict. -/
def classifierOrder : List String :=
  ["w2", "1099-misc", "1099-k", "1099-nec", "1098", "receipt"]

/-- The marker-phrase lists of `DocumentClassifier.keywords`. -/
def classifierKeywords : String → List String
  | "w2" =>
    ["w-2", "wage and tax statement", "wages, tips, other compensation",
     "federal income tax withheld", "social security wages", "medicare wages",
     "box 1", "box 2", "box 3", "box 4", "box 5", "box 6"]
  | "1099-misc" =>
    ["1099-misc", "miscellaneous income", "rents", "royalties",
     "other income", "box 1", "box 2", "box 3", "box 4"]
  | "1099-k" =>
    ["1099-k", "payment card", "third party network", "merchant category code",
     "number of payment transactions", "federal income tax withheld"]
  | "1099-nec" =>
    ["1099-nec", "nonemployee compensation", "services you performed",
     "box 1", "box 4", "box 5"]
  | "1098" =>
    ["1098", "mortgage interest statement", "mortgage interest received",
     "points paid", "outstanding mortgage principal"]
  | "receipt" =>
    ["receipt", "invoice", "paid", "amount due", "total", "tax",
     "subtotal", "payment received", "thank you for your business"]
  | _ => []

/-- Score of one document type: the number of its marker phrases occurring
(lower-cased) in the lower-cased text, each list entry counted at most
once. -/
def keywordScore (textLower : String) (dt : String) : Nat :=
  ((classifierKeywords dt).filter (fun kw => pyIn (pyLower kw) textLower)).length

/-- The `scores` dict of `classify_document`, in insertion order. -/
def scoresList (text : String) : List (String × Nat) :=
  classifierOrder.map (fun dt => (dt, keywordScore (pyLower text) dt))

/-- Python's `max(scores, key=scores.get)` over the item list: the first
element whose score is maximal (a later element replaces the current best
only when strictly greater). -/
def pyMaxBySnd : List (String × Nat) → Option (String × Nat)
  | [] => none
  | p :: rest => some (rest.foldl (fun best q => if best.2 < q.2 then q else best) p)

/-- `DocumentClassifier.classify_document`. -/
def classifyDocument (text : String) : String :=
  match pyMaxBySnd (scoresList text) with
  | some (t, s) => if s = 0 then "other" else t
  | none => "other"

/-- `DocumentClassifier.get_confidence_score`. -/
def getConfidenceScore (text dt : String) : ℚ :=
  if classifierOrder.contains dt then
    if 0 < (classifierKeywords dt).length then
      (keywordScore (pyLower text) dt : ℚ) / ((classifierKeywords dt).length : ℚ)
    else 0
  else 0

/-- The highest marker score over all document types. -/
def maxScoreOf (text : String) : Nat :=
  ((scoresList text).map Prod.snd).foldr max 0

/-! ## `extractor.py` — `DataExtractor`

The extractor's regex patterns are embedded as explicit matchers over
`List Char`. `\d` and `\w` are modelled on their ASCII fragment (all
pattern literals are ASCII). For the fixed-shape `\b…\b` patterns (SSN,
EIN, date) at most one alternative can match at a given start position,
so leftmost search that advances one character on failure reproduces
`re.search`; the currency pattern has no anchors and `re.findall`
continues scanning at the end of each match. -/

/-- `\w` (ASCII fragment): letters, digits, underscore. -/
def isWordChar (c : Char) : Bool := c.isAlphanum || c = '_'

/-- `\d` (ASCII). -/
def isDigitChar (c : Char) : Bool := c.isDigit

/-- Match a fixed sequence of character predicates, returning the matched
characters and the rest. -/
def matchChars : List (Char → Bool) → List Char → Option (List Char × List Char)
  | [], cs => some ([], cs)
  | _ :: _, [] => none
  | p :: ps, c :: cs =>
    if p c then (matchChars ps cs).map (fun m => (c :: m.1, m.2)) else none

/-- `n` repetitions of a character class. -/
def repPred (p : Char → Bool) (n : Nat) : List (Char → Bool) := List.replicate n p

/-- `\b` to the left of a word character: start of string or a non-word
character before. -/
def boundaryBefore : Option Char → Bool
  | none => true
  | some c => !isWordChar c

/-- `\b` to the right of a word character: end of string or a non-word
character after. -/
def boundaryAfter : List Char → Bool
  | [] => true
  | c :: _ => !isWordChar c

/-- Leftmost search for a `\b…\b`-delimited pattern (whose first and last
characters are word characters): try the matcher at each position,
checking the boundaries, advancing one character on failure. -/
def searchBounded (m : List Char → Option (List Char × List Char)) :
    Option Char → List Char → Option (List Char)
  | _, [] => none
  | prev, c :: rest =>
    match (if boundaryBefore prev then m (c :: rest) else none) with
    | some (g, r) =>
      if boundaryAfter r then some g else searchBounded m (some c) rest
    | none => searchBounded m (some c) rest

/-- `\d{3}-\d{2}-\d{4}` (the SSN pattern body). -/
def ssnPattern : List (Char → Bool) :=
  repPred isDigitChar 3 ++ [(· == '-')] ++ repPred isDigitChar 2 ++
    [(· == '-')] ++ repPred isDigitChar 4

/-- `\d{2}-\d{7}` (the EIN pattern body). -/
def einPattern : List (Char → Bool) :=
  repPred isDigitChar 2 ++ [(· == '-')] ++ repPred isDigitChar 7

/-- `DataExtractor.extract_ssn`: `re.search` of `\b\d{3}-\d{2}-\d{4}\b`. -/
def extractSSN (text : String) : Option String :=
  (searchBounded (matchChars ssnPattern) none text.toList).map String.mk

/-- `DataExtractor.extract_ein`: `re.search` of `\b\d{2}-\d{7}\b`. -/
def extractEIN (text : String) : Option String :=
  (searchBounded (matchChars einPattern) none text.toList).map String.mk

/-- `\.\d{2}`. -/
def matchDotDD : List Char → Option (List Char × List Char) :=
  matchChars ([(· == '.')] ++ repPred isDigitChar 2)

/-- `,\d{3}`. -/
def matchCommaGroup : List Char → Option (List Char × List Char) :=
  matchChars ([(· == ',')] ++ repPred isDigitChar 3)

/-- `(?:,\d{3})*\.\d{2}` with greedy backtracking: prefer consuming one
more comma group; if that whole branch fails, match `\.\d{2}` here. The
fuel is bounded by the input length. -/
def starThenDot : Nat → List Char → Option (List Char × List Char)
  | 0, _ => none
  | fuel+1, cs =>
    (match matchCommaGroup cs with
     | some (g, r) => (starThenDot fuel r).map (fun m => (g ++ m.1, m.2))
     | none => none) <|> matchDotDD cs

/-- `\d{n}(?:,\d{3})*\.\d{2}` for a fixed first-group width `n`. -/
def curAlt1Len (n : Nat) (cs : List Char) : Option (List Char × List Char) :=
  match matchChars (repPred isDigitChar n) cs with
  | some (d, r) => (starThenDot (r.length + 1) r).map (fun m => (d ++ m.1, m.2))
  | none => none

/-- First currency alternative `\d{1,3}(?:,\d{3})*\.\d{2}`, greedy on the
leading digit count. -/
def curAlt1 (cs : List Char) : Option (List Char × List Char) :=
  curAlt1Len 3 cs <|> curAlt1Len 2 cs <|> curAlt1Len 1 cs

/-- Second currency alternative `\d+\.\d{2}`, greedy on the digit run. -/
def curAlt2 : List Char → Option (List Char × List Char)
  | [] => none
  | c :: rest =>
    if isDigitChar c then
      match curAlt2 rest with
      | some m => some (c :: m.1, m.2)
      | none => (matchDotDD rest).map (fun m => (c :: m.1, m.2))
    else none

/-- One attempt of the currency pattern
`\$?(\d{1,3}(?:,\d{3})*\.\d{2}|\d+\.\d{2})` at the current position,
returning the captured group (without the `$`) and the rest. A leading
`$` is consumed greedily; retrying without it cannot succeed because the
group starts with a digit. -/
def currencyAt (cs : List Char) : Option (List Char × List Char) :=
  match cs with
  | '$' :: rest => curAlt1 rest <|> curAlt2 rest
  | _ => curAlt1 cs <|> curAlt2 cs

/-- `re.findall` scan for the currency pattern: leftmost,
non-overlapping, continuing after each match; advances one character when
no match starts here. -/
def findAllCurrency : Nat → List Char → List (List Char)
  | 0, _ => []
  | _+1, [] => []
  | fuel+1, c :: rest =>
    match currencyAt (c :: rest) with
    | some (g, r) => g :: findAllCurrency fuel r
    | none => findAllCurrency fuel rest

/-- Digit run to a natural number. -/
def digitsToNat (ds : List Char) : Nat :=
  ds.foldl (fun acc c => acc * 10 + (c.toNat - '0'.toNat)) 0

/-- Modelled: Python `float()` on plain decimal literals (optional sign,
digits, optional single `.` and fractional digits). Scientific notation,
`inf`/`nan`, underscores and surrounding whitespace are outside the
fragment the repository feeds it. Returns `none` where `float()` raises
`ValueError` on this fragment. -/
def pyFloatCore (cs : List Char) : Option ℚ :=
  let sc : ℚ × List Char :=
    match cs with
    | '-' :: r => (-1, r)
    | '+' :: r => (1, r)
    | _ => (1, cs)
  let intPart := sc.2.takeWhile isDigitChar
  let rest := sc.2.dropWhile isDigitChar
  match rest with
  | [] => if intPart.isEmpty then none else some (sc.1 * (digitsToNat intPart : ℚ))
  | '.' :: frac =>
    if frac.all isDigitChar && !(intPart.isEmpty && frac.isEmpty) then
      some (sc.1 * ((digitsToNat intPart : ℚ) +
        (digitsToNat frac : ℚ) / (10 : ℚ) ^ frac.length))
    else none
  | _ => none

/-- `float(answer)` on a string. -/
def pyFloat? (s : String) : Option ℚ := pyFloatCore s.toList

/-- `match.replace(',', '').replace('$', '')`. -/
def cleanCurrency (g : List Char) : List Char :=
  (g.filter (fun c => c ≠ ',')).filter (fun c => c ≠ '$')

/-- `DataExtractor.extract_currency_values`: all currency matches in text
order, cleaned and converted; conversion failures are skipped
(`try/except ValueError: continue`). -/
def extractCurrencyValues (text : String) : List ℚ :=
  (findAllCurrency text.toList.length text.toList).filterMap
    (fun g => pyFloatCore (cleanCurrency g))

/-- `\d{a}/\d{b}/\d{4}` for fixed widths. -/
def dateSlash (a b : Nat) : List (Char → Bool) :=
  repPred isDigitChar a ++ [(· == '/')] ++ repPred isDigitChar b ++
    [(· == '/')] ++ repPred isDigitChar 4

/-- `\d{4}-\d{a}-\d{b}` for fixed widths. -/
def dateDash (a b : Nat) : List (Char → Bool) :=
  repPred isDigitChar 4 ++ [(· == '-')] ++ repPred isDigitChar a ++
    [(· == '-')] ++ repPred isDigitChar b

/-- The date pattern body
`\d{1,2}/\d{1,2}/\d{4}|\d{4}-\d{1,2}-\d{1,2}`, alternatives in the
regex's greedy backtracking order. -/
def dateAt (cs : List Char) : Option (List Char × List Char) :=
  matchChars (dateSlash 2 2) cs <|> matchChars (dateSlash 2 1) cs <|>
  matchChars (dateSlash 1 2) cs <|> matchChars (dateSlash 1 1) cs <|>
  matchChars (dateDash 2 2) cs <|> matchChars (dateDash 2 1) cs <|>
  matchChars (dateDash 1 2) cs <|> matchChars (dateDash 1 1) cs

/-- `re.search` of the `\b…\b`-delimited date pattern. -/
def searchDateStr (text : String) : Option String :=
  (searchBounded dateAt none text.toList).map String.mk

/-- A value stored in an extraction record: Python `None`, a string, or a
number. -/
inductive FieldVal where
  | null : FieldVal
  | str (s : String) : FieldVal
  | num (q : ℚ) : FieldVal
deriving DecidableEq, Repr

/-- An extraction record (`data` dict): present keys map to a value. -/
abbrev ExtractRecord := String → Option FieldVal

/-- The empty dict `{}`. -/
def emptyRecord : ExtractRecord := fun _ => none

/-- `data[k] = v`. -/
def setField (r : ExtractRecord) (k : String) (v : FieldVal) : ExtractRecord :=
  fun k' => if k' = k then some v else r k'

/-- An `Optional[str]` stored into a dict: `None` or the string. -/
def optVal : Option String → FieldVal
  | some s => .str s
  | none => .null

/-- The `box_mappings` names in positional order (boxes 1–6). -/
def w2BoxNames : List String :=
  ["wages_tips_other_comp", "federal_income_tax_withheld",
   "social_security_wages", "social_security_tax_withheld",
   "medicare_wages", "medicare_tax_withheld"]

/-- `DataExtractor.extract_w2_data`: always stores `ssn` (possibly
`None`), then maps the first six currency values positionally onto the
box fields. -/
def extractW2Data (text : String) : ExtractRecord :=
  let d0 := setField emptyRecord "ssn" (optVal (extractSSN text))
  let vals := (extractCurrencyValues text).take 6
  (w2BoxNames.zip vals).foldl (fun acc nv => setField acc nv.1 (.num nv.2)) d0

/-- `DataExtractor.extract_1099_data`: always stores `ssn` and `ein`
(possibly `None`); first currency value becomes
`nonemployee_compensation`, second becomes
`federal_income_tax_withheld`. -/
def extract1099Data (text : String) : ExtractRecord :=
  let d0 := setField emptyRecord "ssn" (optVal (extractSSN text))
  let d1 := setField d0 "ein" (optVal (extractEIN text))
  let vals := extractCurrencyValues text
  let d2 := match vals with
    | v :: _ => setField d1 "nonemployee_compensation" (.num v)
    | [] => d1
  match vals with
  | _ :: v :: _ => setField d2 "federal_income_tax_withheld" (.num v)
  | _ => d2

/-- Python `max` over a nonempty list. -/
def listMax? : List ℚ → Option ℚ
  | [] => none
  | v :: rest => some (rest.foldl max v)

/-- `DataExtractor.extract_receipt_data`: the maximum currency value (if
any) and the first date match (if any); absent matches are omitted. -/
def extractReceiptData (text : String) : ExtractRecord :=
  let vals := extractCurrencyValues text
  let d1 := match listMax? vals with
    | some m => setField emptyRecord "total_amount" (.num m)
    | none => emptyRecord
  match searchDateStr text with
  | some ds => setField d1 "date" (.str ds)
  | none => d1

/-- `DataExtractor.extract_data`: dispatch on the document type. -/
def extractData (text dt : String) : ExtractRecord :=
  if dt = "w2" then extractW2Data text
  else if pyStartsWith dt "1099" then extract1099Data text
  else if dt = "receipt" then extractReceiptData text
  else emptyRecord

/-! ## `qa.py` — `AdaptiveQA`

The `KnowledgeBase` dict is modelled as a structure with one optional,
typed field per question key, exactly the keys and value types
`process_answer` can store. `process_answer` called with a key outside
this set would add an un-modelled dict entry; no code path in the
repository does so, and no claim depends on it. -/

/-- The session `user_data` dict (KnowledgeBase). -/
structure UserData where
  filing_status : Option String := none
  dependents : Option Int := none
  zip_code : Option String := none
  gig_method : Option String := none
  miles : Option ℚ := none
  phone_percent : Option ℚ := none
  home_office_sqft : Option ℚ := none
  state_specific : Option String := none
deriving Repr, DecidableEq

/-- The empty KnowledgeBase `{}`. -/
def emptyUserData : UserData := {}

/-- Dict membership `key in user_data` for the question keys. -/
def hasKey (ud : UserData) (k : String) : Bool :=
  if k = "filing_status" then ud.filing_status.isSome
  else if k = "dependents" then ud.dependents.isSome
  else if k = "zip_code" then ud.zip_code.isSome
  else if k = "gig_method" then ud.gig_method.isSome
  else if k = "miles" then ud.miles.isSome
  else if k = "phone_percent" then ud.phone_percent.isSome
  else if k = "home_office_sqft" then ud.home_office_sqft.isSome
  else if k = "state_specific" then ud.state_specific.isSome
  else false

/-- A question dict returned by `get_next_question`. -/
structure Question where
  key : String
  question : String
  qtype : String
  options : List String := []
deriving Repr, DecidableEq

/-- The `self.questions['en']` prompt table. -/
def questionsEn (k : String) : String :=
  if k = "filing_status" then "What\x27s your filing status?"
  else if k = "dependents" then "How many dependents do you have?"
  else if k = "zip_code" then "What\x27s your ZIP code?"
  else if k = "gig_method" then
    "For gig work, do you use standard mileage rate or actual expenses?"
  else if k = "miles" then "How many business miles did you drive this year?"
  else if k = "phone_percent" then
    "What percentage of your phone bill is for business use?"
  else if k = "home_office" then
    "Do you have a home office? If yes, what\x27s the square footage?"
  else if k = "state_specific" then "Do you have any state-specific tax situations?"
  else ""

/-- The `self.questions['es']` prompt table. -/
def questionsEs (k : String) : String :=
  if k = "filing_status" then "¿Cuál es tu estado civil para impuestos?"
  else if k = "dependents" then "¿Cuántos dependientes tienes?"
  else if k = "zip_code" then "¿Cuál es tu código postal?"
  else if k = "gig_method" then
    "Para trabajo independiente, ¿usas tarifa de millaje estándar o gastos reales?"
  else if k = "miles" then "¿Cuántas millas de negocio condujiste este año?"
  else if k = "phone_percent" then
    "¿Qué porcentaje de tu factura de teléfono es para uso comercial?"
  else if k = "home_office" then
    "¿Tienes una oficina en casa? Si es sí, ¿cuál es el área en pies cuadrados?"
  else if k = "state_specific" then "¿Tienes alguna situación fiscal específica del estado?"
  else ""

/-- `self.questions[language][k]`. Only the `en` and `es` tables exist in
the source dict; the model answers with the English table for any other
code (the bot only indexes with a language whose table exists). -/
def questionText (lang k : String) : String :=
  if lang = "es" then questionsEs k else questionsEn k

/-- `self.options[language]['filing_status']`. -/
def optionsFS (lang : String) : List String :=
  if lang = "es" then
    ["Soltero", "Casado Presentando Conjuntamente", "Casado Presentando Separadamente",
     "Cabeza de Hogar", "Viudo Calificado"]
  else
    ["Single", "Married Filing Jointly", "Married Filing Separately",
     "Head of Household", "Qualifying Widow(er)"]

/-- `self.options[language]['gig_method']`. -/
def optionsGig (lang : String) : List String :=
  if lang = "es" then ["Tarifa de Millaje Estándar", "Gastos Reales"]
  else ["Standard Mileage Rate", "Actual Expenses"]

/-- The `expense_questions` list of `(key, question_key)` pairs. -/
def expenseQuestions : List (String × String) :=
  [("phone_percent", "phone_percent"), ("home_office_sqft", "home_office")]

/-- `AdaptiveQA.get_next_question`. The gig-question block may fall
through (return nothing) to the state-specific check, hence the inner
`Option`. -/
def getNextQuestion (ud : UserData) (docTypes : List String) (lang : String) :
    Option Question :=
  if ud.filing_status.isNone then
    some ⟨"filing_status", questionText lang "filing_status", "choice", optionsFS lang⟩
  else if ud.dependents.isNone then
    some ⟨"dependents", questionText lang "dependents", "number", []⟩
  else if ud.zip_code.isNone then
    some ⟨"zip_code", questionText lang "zip_code", "text", []⟩
  else
    let gig : Option Question :=
      if docTypes.any (fun d => pyIn "1099" (pyLower d)) then
        if ud.gig_method.isNone then
          some ⟨"gig_method", questionText lang "gig_method", "choice", optionsGig lang⟩
        else if ud.gig_method = some "Standard Mileage Rate" then
          if ud.miles.isNone then
            some ⟨"miles", questionText lang "miles", "number", []⟩
          else none
        else if ud.gig_method = some "Actual Expenses" then
          expenseQuestions.findSome? (fun kq =>
            if hasKey ud kq.1 then none
            else some ⟨kq.1, questionText lang kq.2,
              if pyIn "percent" kq.1 then "number" else "text", []⟩)
        else none
      else none
    match gig with
    | some q => some q
    | none =>
      if (pyStartsWith (ud.zip_code.getD "") "9" || pyStartsWith (ud.zip_code.getD "") "8")
          && ud.state_specific.isNone then
        some ⟨"state_specific", questionText lang "state_specific", "yes_no", []⟩
      else none

/-- `answer.replace('-', '')`. -/
def stripHyphens (s : String) : String := ⟨s.data.filter (fun c => c ≠ '-')⟩

/-- `answer.lower().replace(' ', '_')`, the filing-status normalization. -/
def normalizeAnswer (s : String) : String :=
  ⟨(pyLower s).data.map (fun c => if c = ' ' then '_' else c)⟩

/-- The keys validated as numbers. -/
def numericKeys : List String := ["dependents", "miles", "phone_percent", "home_office_sqft"]

/-- The closed set of normalized filing statuses. -/
def validFilingStatuses : List String :=
  ["single", "married_filing_jointly", "married_filing_separately",
   "head_of_household", "qualifying_widow"]

/-- `AdaptiveQA.validate_answer`. -/
def validateAnswer (k answer : String) : Bool × String :=
  if k = "zip_code" then
    (decide (5 ≤ (stripHyphens answer).length), "Please enter a valid ZIP code")
  else if numericKeys.contains k then
    match pyFloat? answer with
    | some v =>
      if k = "phone_percent" && !(decide (0 ≤ v) && decide (v ≤ 100)) then
        (false, "Percentage must be between 0 and 100")
      else if v < 0 then (false, "Value cannot be negative")
      else (true, "")
    | none => (false, "Please enter a valid number")
  else if k = "filing_status" then
    (validFilingStatuses.contains (normalizeAnswer answer),
      "Please select a valid filing status")
  else (true, "")

/-- `int(·)` on a float: truncation toward zero. -/
def pyTrunc (q : ℚ) : Int := q.num / (q.den : Int)

/-- `int(float(answer))`. Where `float()` would raise (an unparseable
string, excluded by prior validation) the model returns 0; no theorem
depends on that case. -/
def pyIntOfAnswer (answer : String) : Int :=
  match pyFloat? answer with
  | some q => pyTrunc q
  | none => 0

/-- `float(answer)`, with the same caveat as `pyIntOfAnswer`. -/
def pyFloatOfAnswer (answer : String) : ℚ := (pyFloat? answer).getD 0

/-- `AdaptiveQA.process_answer`: store a typed value under the question
key (int for dependents, float for the numeric keys, normalized string
for filing_status, the verbatim answer otherwise). -/
def processAnswer (k answer : String) (ud : UserData) : UserData :=
  if k = "dependents" then { ud with dependents := some (pyIntOfAnswer answer) }
  else if k = "miles" then { ud with miles := some (pyFloatOfAnswer answer) }
  else if k = "phone_percent" then { ud with phone_percent := some (pyFloatOfAnswer answer) }
  else if k = "home_office_sqft" then { ud with home_office_sqft := some (pyFloatOfAnswer answer) }
  else if k = "filing_status" then { ud with filing_status := some (normalizeAnswer answer) }
  else if k = "zip_code" then { ud with zip_code := some answer }
  else if k = "gig_method" then { ud with gig_method := some answer }
  else if k = "state_specific" then { ud with state_specific := some answer }
  else ud

/-- The questionnaire loop: ask `get_next_question`, answer with
`answers(key)`, fold via `process_answer`, and record the key sequence;
the fuel bounds the number of rounds (at most eight questions exist). -/
def runQA (answers : String → String) (docTypes : List String) (lang : String) :
    Nat → UserData → List String
  | 0, _ => []
  | fuel+1, ud =>
    match getNextQuestion ud docTypes lang with
    | none => []
    | some q => q.key :: runQA answers docTypes lang fuel (processAnswer q.key (answers q.key) ud)

/-- The method-dependent gig follow-up keys for a stored `gig_method`
value. -/
def gigFollowups (m : String) : List String :=
  if m = "Standard Mileage Rate" then ["miles"]
  else if m = "Actual Expenses" then ["phone_percent", "home_office_sqft"]
  else []

/-- The question-key sequence claim C2 predicts for a run from the empty
KnowledgeBase. -/
def expectedTrace (answers : String → String) (docTypes : List String) : List String :=
  ["filing_status", "dependents", "zip_code"] ++
  (if docTypes.any (fun d => pyIn "1099" (pyLower d)) then
    "gig_method" :: gigFollowups (answers "gig_method")
  else []) ++
  (if pyStartsWith (answers "zip_code") "9" || pyStartsWith (answers "zip_code") "8" then
    ["state_specific"]
  else [])

/-- A KnowledgeBase mid-session: basics answered, standard-mileage gig
method chosen, follow-ups still open. -/
def gigUserData : UserData :=
  { filing_status := some "single", dependents := some 0, zip_code := some "12345",
    gig_method := some "Standard Mileage Rate" }

/-! ### The claimed digit-count ZIP rule (spec side, for claim C7) -/

/-- Digit count of the hyphen-stripped answer, the quantity claim C7 says
`validate_answer('zip_code', ·)` thresholds at 5. -/
def digitCountNoHyphens (s : String) : Nat :=
  ((stripHyphens s).data.filter Char.isDigit).length

/-! # Theorems -/

/-! ## Arithmetic helper lemmas -/

theorem roundHalfEven_nonneg {x : ℚ} (hx : 0 ≤ x) : 0 ≤ roundHalfEven x := by
  have hf : (0 : ℤ) ≤ ⌊x⌋ := Int.floor_nonneg.mpr hx
  unfold roundHalfEven
  split_ifs <;> omega

theorem pyRound2_zero : pyRound2 0 = 0 := by
  norm_num [pyRound2, roundHalfEven]

theorem pyRound2_nonneg {x : ℚ} (hx : 0 ≤ x) : 0 ≤ pyRound2 x := by
  have h : (0 : ℤ) ≤ roundHalfEven (x * 100) :=
    roundHalfEven_nonneg (by positivity)
  unfold pyRound2
  have : (0 : ℚ) ≤ (roundHalfEven (x * 100) : ℚ) := by exact_mod_cast h
  positivity

/-! ## Claim C1 — progressive bracket tax -/

theorem claimBracketSum_eq_zero {inc : ℚ} {bs : List Bracket}
    (h : ∀ b ∈ bs, ¬ b.lo < inc) : claimBracketSum inc bs = 0 := by
  induction bs with
  | nil => rfl
  | cons b rest ih =>
    have hb : ¬ b.lo < inc := h b (List.mem_cons_self b rest)
    have := ih (fun a ha => h a (List.mem_cons_of_mem b ha))
    simp [claimBracketSum, hb] at this ⊢
    exact this

/-- On a bracket table with nondecreasing lower bounds, the source's
break-at-first-unreached-bracket loop computes exactly the claim's
filtered sum. -/
theorem bracketLoop_eq_claimBracketSum (inc : ℚ) (bs : List Bracket)
    (hs : bs.Pairwise (fun a b => a.lo ≤ b.lo)) :
    bracketLoop inc bs = claimBracketSum inc bs := by
  induction bs with
  | nil => rfl
  | cons b rest ih =>
    rw [List.pairwise_cons] at hs
    by_cases hlt : b.lo < inc
    · have hmin : ∀ h : ℚ, min (inc - b.lo) (h - b.lo) = min inc h - b.lo := by
        intro h; rw [min_sub_sub_right]
      cases hhi : b.hi with
      | none =>
        simp [bracketLoop, claimBracketSum, hlt, taxableInBracket, hhi, ih hs.2]
      | some h =>
        simp [bracketLoop, claimBracketSum, hlt, taxableInBracket, hhi, hmin, ih hs.2]
    · have hall : claimBracketSum inc (b :: rest) = 0 := by
        refine claimBracketSum_eq_zero (fun a ha => ?_)
        rcases List.mem_cons.mp ha with h | h
        · exact h ▸ hlt
        · exact fun hLt => hlt (lt_of_le_of_lt (hs.1 a h) hLt)
      rw [hall]
      simp [bracketLoop, hlt]

theorem bracketsSingle_sorted :
    bracketsSingle.Pairwise (fun a b => a.lo ≤ b.lo) := by
  norm_num [bracketsSingle, List.pairwise_cons]

theorem bracketsMFJ_sorted :
    bracketsMFJ.Pairwise (fun a b => a.lo ≤ b.lo) := by
  norm_num [bracketsMFJ, List.pairwise_cons]

/-- Claim C1, as stated, is false: at the non-negative taxable income
`0.001` (filing status `single`) the code returns `round(0.0001, 2) = 0`,
while the claimed bracket sum is `0.0001`. -/
theorem claim_C1_counterexample :
    (0 : ℚ) ≤ 1/1000 ∧
      calculateProgressiveTax (1/1000) "single" ≠
        claimBracketSum (1/1000) bracketsSingle := by
  constructor
  · norm_num
  · have hcode : calculateProgressiveTax (1/1000) "single" = 0 := by
      simp [calculateProgressiveTax, federalBrackets]
      norm_num [bracketLoop, bracketsSingle, taxableInBracket, min_def, pyRound2, roundHalfEven]
    have hspec : claimBracketSum (1/1000) bracketsSingle = 1/10000 := by
      norm_num [claimBracketSum, bracketsSingle, min_def]
    rw [hcode, hspec]
    norm_num

/-- Claim C1 amended: for both filing statuses in the table and every
non-negative taxable income, `_calculate_progressive_tax` returns the
claimed bracket sum *rounded half-to-even to 2 decimal places*; in
particular for `single` at 50000 the result is 6307.50. -/
theorem claim_C1_amended :
    (∀ fs ∈ ["single", "married_filing_jointly"], ∀ inc : ℚ, 0 ≤ inc →
      calculateProgressiveTax inc fs =
        pyRound2 (claimBracketSum inc ((federalBrackets fs).getD bracketsSingle))) ∧
    calculateProgressiveTax 50000 "single" = 630750/100 := by
  constructor
  · intro fs hfs inc _
    unfold calculateProgressiveTax
    rcases List.mem_pair.mp hfs with h | h <;> subst h
    · rw [bracketLoop_eq_claimBracketSum inc _ (by simpa [federalBrackets] using bracketsSingle_sorted)]
    · rw [bracketLoop_eq_claimBracketSum inc _ (by simpa [federalBrackets] using bracketsMFJ_sorted)]
  · simp only [calculateProgressiveTax, federalBrackets, if_pos, Option.getD_some]
    norm_num [bracketLoop, bracketsSingle, taxableInBracket, min_def, pyRound2, roundHalfEven]

/-- Witness for `claim_C1_amended` at `single`, taxable income 50000. -/
theorem claim_C1_amended_witness :
    calculateProgressiveTax 50000 "single" =
      pyRound2 (claimBracketSum 50000 ((federalBrackets "single").getD bracketsSingle)) :=
  claim_C1_amended.1 "single" (by simp) 50000 (by norm_num)

/-! ## Claim C4 — refund / amount_due split -/

/-- Claim C4, as stated, is false: on `c4Input` (withheld `0.001`, tax
owed `0`) the code returns refund `0` and amount_due `0`, so neither is
nonzero even though withheld ≠ tax owed, and refund ≠ withheld − tax_owed. -/
theorem claim_C4_counterexample :
    (calculateFederalTax c4Input).refund = 0 ∧
    (calculateFederalTax c4Input).amount_due = 0 ∧
    (calculateFederalTax c4Input).withheld - (calculateFederalTax c4Input).tax_owed = 1/1000 := by
  have h : calculateFederalTax c4Input =
      { taxable_income := 0, tax_owed := 0, withheld := 1/1000, refund := 0, amount_due := 0 } := by
    simp [calculateFederalTax, c4Input, sumField, standardDeductionTable,
      calculateProgressiveTax, federalBrackets, List.map_cons, List.map_nil, List.sum_cons,
      List.sum_nil]
    norm_num [bracketLoop, bracketsSingle, taxableInBracket, min_def, max_def,
      pyRound2, roundHalfEven]
  rw [h]
  norm_num

/-- The refund/amount_due pair computed by `calculate_federal_tax` from
total withholding `w` and tax owed `t`, analysed in both branches. -/
theorem refundAmountDueSplit (w t : ℚ) :
    0 ≤ pyRound2 (if t < w then (w - t, (0:ℚ)) else ((0:ℚ), t - w)).1 ∧
    0 ≤ pyRound2 (if t < w then (w - t, (0:ℚ)) else ((0:ℚ), t - w)).2 ∧
    (pyRound2 (if t < w then (w - t, (0:ℚ)) else ((0:ℚ), t - w)).1 = 0 ∨
      pyRound2 (if t < w then (w - t, (0:ℚ)) else ((0:ℚ), t - w)).2 = 0) ∧
    (t < w →
      pyRound2 (if t < w then (w - t, (0:ℚ)) else ((0:ℚ), t - w)).1 = pyRound2 (w - t) ∧
      pyRound2 (if t < w then (w - t, (0:ℚ)) else ((0:ℚ), t - w)).2 = 0) ∧
    (¬ t < w →
      pyRound2 (if t < w then (w - t, (0:ℚ)) else ((0:ℚ), t - w)).1 = 0 ∧
      pyRound2 (if t < w then (w - t, (0:ℚ)) else ((0:ℚ), t - w)).2 = pyRound2 (t - w)) := by
  by_cases h : t < w
  · rw [if_pos h]
    dsimp only
    exact ⟨pyRound2_nonneg (by linarith), le_of_eq pyRound2_zero.symm,
      Or.inr pyRound2_zero, fun _ => ⟨rfl, pyRound2_zero⟩, fun hc => absurd h hc⟩
  · rw [if_neg h]
    dsimp only
    have h' := not_lt.mp h
    exact ⟨le_of_eq pyRound2_zero.symm, pyRound2_nonneg (by linarith),
      Or.inl pyRound2_zero, fun hc => absurd hc h, fun _ => ⟨pyRound2_zero, rfl⟩⟩

/-- Claim C4 amended: refund and amount_due are both non-negative and at
most one of them is nonzero; when withheld > tax_owed the refund is
`round(withheld − tax_owed, 2)` and amount_due is 0, otherwise the refund
is 0 and amount_due is `round(tax_owed − withheld, 2)`. -/
theorem claim_C4_amended (ti : TaxInput) :
    0 ≤ (calculateFederalTax ti).refund ∧
    0 ≤ (calculateFederalTax ti).amount_due ∧
    ((calculateFederalTax ti).refund = 0 ∨ (calculateFederalTax ti).amount_due = 0) ∧
    ((calculateFederalTax ti).tax_owed < (calculateFederalTax ti).withheld →
      (calculateFederalTax ti).refund =
        pyRound2 ((calculateFederalTax ti).withheld - (calculateFederalTax ti).tax_owed) ∧
      (calculateFederalTax ti).amount_due = 0) ∧
    (¬ (calculateFederalTax ti).tax_owed < (calculateFederalTax ti).withheld →
      (calculateFederalTax ti).refund = 0 ∧
      (calculateFederalTax ti).amount_due =
        pyRound2 ((calculateFederalTax ti).tax_owed - (calculateFederalTax ti).withheld)) :=
  refundAmountDueSplit ((calculateFederalTax ti).withheld) ((calculateFederalTax ti).tax_owed)

/-- Witness for `claim_C4_amended` on the spec's end-to-end scenario
(wages 60000, withheld 9000, single): a strictly positive refund. -/
theorem claim_C4_amended_witness :
    0 ≤ (calculateFederalTax scenarioInput).refund ∧
    0 ≤ (calculateFederalTax scenarioInput).amount_due ∧
    ((calculateFederalTax scenarioInput).refund = 0 ∨
      (calculateFederalTax scenarioInput).amount_due = 0) ∧
    ((calculateFederalTax scenarioInput).tax_owed < (calculateFederalTax scenarioInput).withheld →
      (calculateFederalTax scenarioInput).refund =
        pyRound2 ((calculateFederalTax scenarioInput).withheld -
          (calculateFederalTax scenarioInput).tax_owed) ∧
      (calculateFederalTax scenarioInput).amount_due = 0) ∧
    (¬ (calculateFederalTax scenarioInput).tax_owed < (calculateFederalTax scenarioInput).withheld →
      (calculateFederalTax scenarioInput).refund = 0 ∧
      (calculateFederalTax scenarioInput).amount_due =
        pyRound2 ((calculateFederalTax scenarioInput).tax_owed -
          (calculateFederalTax scenarioInput).withheld)) :=
  claim_C4_amended scenarioInput

/-! ## Claim C8 — self-employment tax zero case -/

/-- Claim C8: when no extraction record whose document type starts with
`'1099'` carries a `nonemployee_compensation` field, the self-employment
calculation returns the all-zero bundle. -/
theorem claim_C8 (ti : TaxInput)
    (h : ∀ e ∈ ti.extracted_data, pyStartsWith e.1 "1099" = true →
      ∀ d, e.2.data = some d → d "nonemployee_compensation" = none) :
    calculateSelfEmploymentTax ti =
      { total_income := 0, social_security_tax := 0, medicare_tax := 0
        additional_medicare_tax := none, total_tax := 0 } := by
  have hzero : total1099Income ti.extracted_data = 0 := by
    unfold total1099Income sumField
    refine List.sum_eq_zero ?_
    intro x hx
    rcases List.mem_map.mp hx with ⟨e, he, rfl⟩
    by_cases hp : pyStartsWith e.1 "1099" = true
    · cases hd : e.2.data with
      | none => simp [hp, hd]
      | some d => simp [hp, hd, h e he hp d hd]
    · simp [hp]
  unfold calculateSelfEmploymentTax
  rw [hzero]
  rfl

/-- Witness for `claim_C8` on a bundle holding a W-2 with data and a
`1099-nec` record without a `'data'` entry. -/
theorem claim_C8_witness :
    calculateSelfEmploymentTax no1099IncomeInput =
      { total_income := 0, social_security_tax := 0, medicare_tax := 0
        additional_medicare_tax := none, total_tax := 0 } := by
  refine claim_C8 no1099IncomeInput ?_
  intro e he h1099 d hd
  rcases List.mem_cons.mp he with rfl | he
  · exact absurd h1099 (by decide)
  · rcases List.mem_cons.mp he with rfl | he
    · exact absurd hd (by simp [no1099IncomeInput])
    · exact absurd he (List.not_mem_nil e)

/-! ## Claim C9 — filing statuses outside the engine's tables -/

/-- Claim C9: for a filing status outside {single, married_filing_jointly}
the standard deduction falls back to 0 (taxable income = total W-2 wages,
given non-negative wages) and the single-filer bracket table is used. -/
theorem claim_C9 (ti : TaxInput) (fs : String)
    (hfs : ti.user_answers "filing_status" = some fs)
    (h1 : fs ≠ "single") (h2 : fs ≠ "married_filing_jointly")
    (hw : 0 ≤ sumField ti.extracted_data (· = "w2") "wages_tips_other_comp") :
    (calculateFederalTax ti).taxable_income =
      sumField ti.extracted_data (· = "w2") "wages_tips_other_comp" ∧
    (calculateFederalTax ti).tax_owed =
      calculateProgressiveTax ((calculateFederalTax ti).taxable_income) "single" := by
  have hsd : (standardDeductionTable fs).getD 0 = 0 := by
    simp [standardDeductionTable, h1, h2]
  have hfb : (federalBrackets fs).getD bracketsSingle = bracketsSingle := by
    simp [federalBrackets, h1, h2]
  unfold calculateFederalTax
  simp only [hfs, Option.getD_some]
  rw [hsd]
  have htax : max 0 (sumField ti.extracted_data (· = "w2") "wages_tips_other_comp" - 0) =
      sumField ti.extracted_data (· = "w2") "wages_tips_other_comp" := by
    rw [sub_zero]; exact max_eq_right hw
  rw [htax]
  refine ⟨rfl, ?_⟩
  unfold calculateProgressiveTax
  rw [hfb]
  simp [federalBrackets]

/-- Witness for `claim_C9`: filing status `head_of_household`, one W-2
with wages 1000. -/
theorem claim_C9_witness :
    (calculateFederalTax hohInput).taxable_income =
      sumField hohInput.extracted_data (· = "w2") "wages_tips_other_comp" ∧
    (calculateFederalTax hohInput).tax_owed =
      calculateProgressiveTax ((calculateFederalTax hohInput).taxable_income) "single" :=
  claim_C9 hohInput "head_of_household" (by simp [hohInput]) (by decide) (by decide)
    (by norm_num [hohInput, sumField])

/-! ## Claims C5 and C6 — document classifier -/

/-- The fold inside `pyMaxBySnd` returns the first element of
`best :: rest` attaining the maximal second component: every element is
bounded by the result's score, and the result is the first element whose
score reaches it. -/
theorem argmaxFold_spec (rest : List (String × Nat)) :
    ∀ best : String × Nat,
      (∀ q ∈ best :: rest,
        q.2 ≤ (rest.foldl (fun b q => if b.2 < q.2 then q else b) best).2) ∧
      (best :: rest).find?
          (fun q => decide ((rest.foldl (fun b q => if b.2 < q.2 then q else b) best).2 ≤ q.2)) =
        some (rest.foldl (fun b q => if b.2 < q.2 then q else b) best) := by
  induction rest with
  | nil =>
    intro best
    refine ⟨by simp, ?_⟩
    rw [List.find?_cons_of_pos _ (by simp)]
    rfl
  | cons q rest ih =>
    intro best
    obtain ⟨ihb, ihf⟩ := ih (if best.2 < q.2 then q else best)
    by_cases hlt : best.2 < q.2
    · rw [if_pos hlt] at ihb ihf
      simp only [List.foldl_cons, if_pos hlt]
      have hq : q.2 ≤ (rest.foldl (fun b q => if b.2 < q.2 then q else b) q).2 :=
        ihb q (List.mem_cons_self q rest)
      constructor
      · intro x hx
        rcases List.mem_cons.mp hx with rfl | hx
        · exact le_trans (le_of_lt hlt) hq
        · exact ihb x hx
      · rw [List.find?_cons_of_neg _ (by simp; omega), ihf]
    · rw [if_neg hlt] at ihb ihf
      simp only [List.foldl_cons, if_neg hlt]
      have hb : best.2 ≤ (rest.foldl (fun b q => if b.2 < q.2 then q else b) best).2 :=
        ihb best (List.mem_cons_self best rest)
      constructor
      · intro x hx
        rcases List.mem_cons.mp hx with rfl | hx
        · exact hb
        · rcases List.mem_cons.mp hx with rfl | hx
          · exact le_trans (le_of_not_lt hlt) hb
          · exact ihb x (List.mem_cons_of_mem best hx)
      · by_cases hh :
          (rest.foldl (fun b q => if b.2 < q.2 then q else b) best).2 ≤ best.2
        · rw [List.find?_cons_of_pos _ (by simpa using hh)]
          rw [List.find?_cons_of_pos _ (by simpa using hh)] at ihf
          exact ihf
        · rw [List.find?_cons_of_neg _ (by simpa using hh)]
          rw [List.find?_cons_of_neg _ (by simpa using hh)] at ihf
          rw [List.find?_cons_of_neg _ (by simp; omega)]
          exact ihf

theorem le_foldr_max {l : List Nat} {x : Nat} (h : x ∈ l) : x ≤ l.foldr max 0 := by
  induction l with
  | nil => cases h
  | cons a t ih =>
    rcases List.mem_cons.mp h with rfl | h
    · exact le_max_left _ _
    · exact le_trans (ih h) (le_max_right _ _)

theorem foldr_max_le {l : List Nat} {b : Nat} (h : ∀ x ∈ l, x ≤ b) : l.foldr max 0 ≤ b := by
  induction l with
  | nil => exact Nat.zero_le b
  | cons a t ih =>
    exact max_le (h a (List.mem_cons_self a t))
      (ih (fun x hx => h x (List.mem_cons_of_mem a hx)))

theorem find?_congr_pred {α : Type} {p q : α → Bool} (l : List α)
    (h : ∀ x ∈ l, p x = q x) : l.find? p = l.find? q := by
  induction l with
  | nil => rfl
  | cons a t ih =>
    have ha := h a (List.mem_cons_self a t)
    cases hp : p a with
    | true =>
      rw [List.find?_cons_of_pos _ hp, List.find?_cons_of_pos _ (ha ▸ hp)]
    | false =>
      rw [List.find?_cons_of_neg _ (by simp [hp]), List.find?_cons_of_neg _ (by simp [← ha, hp])]
      exact ih (fun x hx => h x (List.mem_cons_of_mem a hx))

/-- Claim C5: whenever some marker phrase matches (`maxScoreOf text > 0`),
`classify_document` returns the first-declared type attaining the maximal
score — the strictly highest score when it is unique, the first of the
tied types in the order w2, 1099-misc, 1099-k, 1099-nec, 1098, receipt
otherwise. -/
theorem claim_C5 (text : String) (hpos : 0 < maxScoreOf text) :
    (scoresList text).find? (fun q => q.2 == maxScoreOf text) =
      some (classifyDocument text, maxScoreOf text) := by
  obtain ⟨p0, rest, hsc⟩ : ∃ p0 rest, scoresList text = p0 :: rest := by
    simp only [scoresList, classifierOrder, List.map_cons]
    exact ⟨_, _, rfl⟩
  obtain ⟨hbound, hfind⟩ := argmaxFold_spec rest p0
  set r := rest.foldl (fun b q => if b.2 < q.2 then q else b) p0 with hr
  have hmax : pyMaxBySnd (scoresList text) = some r := by rw [hsc]; rfl
  have hballs : ∀ q ∈ scoresList text, q.2 ≤ r.2 := by rw [hsc]; exact hbound
  have hmem : r ∈ scoresList text := by
    rw [hsc]; exact List.mem_of_find?_eq_some hfind
  have hmaxeq : maxScoreOf text = r.2 := by
    refine le_antisymm ?_ ?_
    · refine foldr_max_le ?_
      intro x hx
      rcases List.mem_map.mp hx with ⟨q, hq, rfl⟩
      exact hballs q hq
    · exact le_foldr_max (List.mem_map_of_mem Prod.snd hmem)
  have hne : r.2 ≠ 0 := by omega
  have hclass : classifyDocument text = r.1 := by
    unfold classifyDocument
    rw [hmax]
    rcases r with ⟨t, s⟩
    simp only at hne ⊢
    rw [if_neg hne]
  rw [hclass, hmaxeq, hsc]
  have hpred : ∀ q ∈ p0 :: rest, (q.2 == r.2) = decide (r.2 ≤ q.2) := by
    intro q hq
    have hle : q.2 ≤ r.2 := hballs q (hsc ▸ hq)
    by_cases h : q.2 = r.2
    · simp [h]
    · have hlt : q.2 < r.2 := lt_of_le_of_ne hle h
      rw [decide_eq_false (by omega), beq_eq_false_iff_ne.mpr h]
  rw [find?_congr_pred (p0 :: rest) hpred, hfind]

/-- Witness for `claim_C5` on a text matching several W-2 phrases. -/
theorem claim_C5_witness :
    (scoresList "W-2 Wage and Tax Statement, box 1").find?
        (fun q => q.2 == maxScoreOf "W-2 Wage and Tax Statement, box 1") =
      some (classifyDocument "W-2 Wage and Tax Statement, box 1",
        maxScoreOf "W-2 Wage and Tax Statement, box 1") :=
  claim_C5 "W-2 Wage and Tax Statement, box 1" (by decide)

/-- Claim C6: when no marker phrase of any document type occurs
(case-insensitively) in the text, `classify_document` returns `'other'`
and `get_confidence_score` returns 0 for every document type. (Both
functions are total Lean functions, so no exception is possible.) -/
theorem claim_C6 (text : String)
    (h : ∀ dt ∈ classifierOrder, ∀ kw ∈ classifierKeywords dt,
      pyIn (pyLower kw) (pyLower text) = false) :
    classifyDocument text = "other" ∧ ∀ dt, getConfidenceScore text dt = 0 := by
  have hs : ∀ dt ∈ classifierOrder, keywordScore (pyLower text) dt = 0 := by
    intro dt hdt
    unfold keywordScore
    rw [List.length_eq_zero]
    rw [List.filter_eq_nil_iff]
    intro kw hkw
    simp [h dt hdt kw hkw]
  have hsl : scoresList text = classifierOrder.map (fun dt => (dt, 0)) := by
    unfold scoresList
    exact List.map_congr_left (fun dt hdt => by rw [hs dt hdt])
  constructor
  · unfold classifyDocument
    rw [hsl]
    simp [classifierOrder, pyMaxBySnd]
  · intro dt
    unfold getConfidenceScore
    by_cases hdt : classifierOrder.contains dt
    · have hmem : dt ∈ classifierOrder := by
        simpa [beq_iff_eq] using List.contains_iff_exists_mem_beq.mp hdt
      rw [if_pos hdt, hs dt hmem]
      split_ifs <;> simp
    · rw [if_neg hdt]

/-- Witness for `claim_C6` on a text matching no marker phrase. -/
theorem claim_C6_witness :
    classifyDocument "zzzz" = "other" ∧ ∀ dt, getConfidenceScore "zzzz" dt = 0 :=
  claim_C6 "zzzz" (by decide)

/-! ## Claim C3 — extraction records and missing fields -/

theorem setField_null {r : ExtractRecord} {k0 k : String} {v : FieldVal}
    (h : setField r k0 v k = some FieldVal.null) :
    (k = k0 ∧ v = FieldVal.null) ∨ r k = some FieldVal.null := by
  unfold setField at h
  by_cases hk : k = k0
  · rw [if_pos hk] at h
    exact Or.inl ⟨hk, Option.some.inj h⟩
  · rw [if_neg hk] at h
    exact Or.inr h

/-- Folding positional `.num` stores over a record never introduces a
`None` value. -/
theorem foldl_setField_num_null (ps : List (String × ℚ)) (acc : ExtractRecord) (k : String)
    (h : (ps.foldl (fun a nv => setField a nv.1 (FieldVal.num nv.2)) acc) k = some FieldVal.null) :
    acc k = some FieldVal.null := by
  induction ps generalizing acc with
  | nil => exact h
  | cons nv rest ih =>
    have h' := ih (setField acc nv.1 (FieldVal.num nv.2)) h
    rcases setField_null h' with ⟨_, hv⟩ | hc
    · exact absurd hv (by simp)
    · exact hc

theorem setField_isSome (r : ExtractRecord) (k0 k : String) (v : FieldVal) :
    ((setField r k0 v) k).isSome = true ↔ k = k0 ∨ (r k).isSome = true := by
  unfold setField
  by_cases h : k = k0 <;> simp [h]

/-- The domain after folding positional `.num` stores: exactly the stored
names plus the base record's domain. -/
theorem foldl_setField_isSome (ps : List (String × ℚ)) (acc : ExtractRecord) (k : String) :
    ((ps.foldl (fun a nv => setField a nv.1 (FieldVal.num nv.2)) acc) k).isSome = true ↔
      k ∈ ps.map Prod.fst ∨ (acc k).isSome = true := by
  induction ps generalizing acc with
  | nil => simp
  | cons p ps ih =>
    rw [List.foldl_cons, ih, setField_isSome]
    simp [List.mem_cons]
    tauto

theorem listMax?_eq_none_iff (l : List ℚ) : listMax? l = none ↔ l = [] := by
  cases l <;> simp [listMax?]

/-- Claim C3, as stated, is false: on the empty text (where the SSN
pattern does not match) `extract_data('', 'w2')` binds the key `ssn` to
Python `None` instead of omitting it. -/
theorem claim_C3_counterexample :
    extractSSN "" = none ∧ extractData "" "w2" "ssn" = some FieldVal.null := by
  constructor <;> rfl

/-- Claim C3 amended: `extract_data` raises no exception (it is total)
and the returned record's keys are exact: (1) a `None` placeholder occurs
only in the w2/1099 extractors and only at `ssn`/`ein`; (2) a `w2` record
contains exactly `ssn` (always, possibly `None`) plus the box names
positionally paired with the at most six currency values, so any box
whose currency value was not found is absent; (3) a `1099…` record
contains exactly `ssn` and `ein` (always, possibly `None`) plus
`nonemployee_compensation` when a first currency value exists and
`federal_income_tax_withheld` when a second exists; (4) a `receipt`
record contains exactly `total_amount` when some currency value exists
and `date` when the date pattern matches — never a placeholder; (5) any
other document type yields the empty record. -/
theorem claim_C3_amended (text dt k : String) :
    (extractData text dt k = some FieldVal.null →
      (dt = "w2" ∨ pyStartsWith dt "1099" = true) ∧ (k = "ssn" ∨ k = "ein")) ∧
    ((extractData text "w2" k).isSome = true ↔
      k = "ssn" ∨ k ∈ (w2BoxNames.zip ((extractCurrencyValues text).take 6)).map Prod.fst) ∧
    (pyStartsWith dt "1099" = true →
      ((extractData text dt k).isSome = true ↔
        k = "ssn" ∨ k = "ein" ∨
        (k = "nonemployee_compensation" ∧ extractCurrencyValues text ≠ []) ∨
        (k = "federal_income_tax_withheld" ∧ 2 ≤ (extractCurrencyValues text).length))) ∧
    ((extractData text "receipt" k).isSome = true ↔
      (k = "total_amount" ∧ extractCurrencyValues text ≠ []) ∨
      (k = "date" ∧ (searchDateStr text).isSome = true)) ∧
    (dt ≠ "w2" → pyStartsWith dt "1099" = false → dt ≠ "receipt" →
      extractData text dt k = none) := by
  refine ⟨?_, ?_, ?_, ?_, ?_⟩
  · -- (1) `None` only at ssn/ein, only in the w2/1099 branches
    intro h
    unfold extractData at h
    split_ifs at h with h1 h2 h3
    · refine ⟨Or.inl h1, ?_⟩
      unfold extractW2Data at h
      have h0 := foldl_setField_num_null _ _ _ h
      rcases setField_null h0 with ⟨hk, _⟩ | hc
      · exact Or.inl hk
      · exact absurd hc (by simp [emptyRecord])
    · refine ⟨Or.inr h2, ?_⟩
      unfold extract1099Data at h
      rcases hv : extractCurrencyValues text with _ | ⟨v1, vs⟩
      · rw [hv] at h
        simp only at h
        rcases setField_null h with ⟨hk, _⟩ | hc
        · exact Or.inr hk
        · rcases setField_null hc with ⟨hk, _⟩ | hc'
          · exact Or.inl hk
          · exact absurd hc' (by simp [emptyRecord])
      · rcases vs with _ | ⟨v2, rest⟩ <;> rw [hv] at h <;> simp only at h
        · rcases setField_null h with ⟨_, hv1⟩ | hc
          · exact absurd hv1 (by simp)
          · rcases setField_null hc with ⟨hk, _⟩ | hc'
            · exact Or.inr hk
            · rcases setField_null hc' with ⟨hk, _⟩ | hc''
              · exact Or.inl hk
              · exact absurd hc'' (by simp [emptyRecord])
        · rcases setField_null h with ⟨_, hv2⟩ | hc
          · exact absurd hv2 (by simp)
          · rcases setField_null hc with ⟨_, hv1⟩ | hc'
            · exact absurd hv1 (by simp)
            · rcases setField_null hc' with ⟨hk, _⟩ | hc''
              · exact Or.inr hk
              · rcases setField_null hc'' with ⟨hk, _⟩ | hc'''
                · exact Or.inl hk
                · exact absurd hc''' (by simp [emptyRecord])
    · -- receipt never stores `None`
      exfalso
      unfold extractReceiptData at h
      have hbase : ∀ z : Option ℚ,
          (match z with
            | some m => setField emptyRecord "total_amount" (FieldVal.num m)
            | none => emptyRecord) k = some FieldVal.null → False := by
        intro z hz
        cases z with
        | none => simp [emptyRecord] at hz
        | some m =>
          rcases setField_null hz with ⟨_, hm⟩ | hc
          · simp at hm
          · simp [emptyRecord] at hc
      rcases hd : searchDateStr text with _ | ds
      · rw [hd] at h
        simp only at h
        exact hbase _ h
      · rw [hd] at h
        simp only at h
        rcases setField_null h with ⟨_, hds⟩ | hc
        · simp at hds
        · exact hbase _ hc
    · exact absurd h (by simp [emptyRecord])
  · -- (2) exact domain of a w2 record
    have hw : extractData text "w2" = extractW2Data text := by simp [extractData]
    rw [hw]
    unfold extractW2Data
    try dsimp only
    rw [foldl_setField_isSome, setField_isSome]
    simp [emptyRecord]
    tauto
  · -- (3) exact domain of a 1099 record
    intro h1099
    have hw : dt ≠ "w2" := by
      intro hh
      rw [hh] at h1099
      exact absurd h1099 (by decide)
    have he : extractData text dt = extract1099Data text := by
      simp [extractData, hw, h1099]
    rw [he]
    unfold extract1099Data
    try dsimp only
    rcases hv : extractCurrencyValues text with _ | ⟨v1, vs⟩
    · dsimp only
      rw [setField_isSome, setField_isSome]
      simp [emptyRecord]
      tauto
    · rcases vs with _ | ⟨v2, rest⟩
      · dsimp only
        rw [setField_isSome, setField_isSome, setField_isSome]
        simp [emptyRecord]
        tauto
      · dsimp only
        rw [setField_isSome, setField_isSome, setField_isSome, setField_isSome]
        have hlen : 2 ≤ (v1 :: v2 :: rest).length := by
          simp only [List.length_cons]
          omega
        simp [emptyRecord, hlen]
        tauto
  · -- (4) exact domain of a receipt record
    have hr : extractData text "receipt" = extractReceiptData text := by
      simp [extractData, show pyStartsWith "receipt" "1099" = false from by decide]
    rw [hr]
    unfold extractReceiptData
    try dsimp only
    rcases hm : listMax? (extractCurrencyValues text) with _ | m
    · have hnil : extractCurrencyValues text = [] := (listMax?_eq_none_iff _).mp hm
      rcases hd : searchDateStr text with _ | ds <;> dsimp only
      · simp [emptyRecord, hnil]
      · rw [setField_isSome]
        simp [emptyRecord, hnil, hd]
    · have hne : extractCurrencyValues text ≠ [] := by
        intro hh
        rw [hh] at hm
        simp [listMax?] at hm
      rcases hd : searchDateStr text with _ | ds <;> dsimp only
      · rw [setField_isSome]
        simp [emptyRecord, hne, hd]
      · rw [setField_isSome, setField_isSome]
        simp [emptyRecord, hne, hd]
        tauto
  · -- (5) unrecognized types yield the empty record
    intro hw h1099 hr
    simp [extractData, hw, h1099, hr, emptyRecord]

/-- Witness for `claim_C3_amended`: an unrecognized document type yields
the empty record (the `ssn` key is absent there). -/
theorem claim_C3_amended_witness : extractData "" "unknown" "ssn" = none :=
  (claim_C3_amended "" "unknown" "ssn").2.2.2.2 (by decide) (by decide) (by decide)

/-! ## Claims C2, C7, C10 — adaptive questionnaire -/

/-- Complete characterization of `get_next_question`'s possible outputs:
each returned key comes with the state that triggered it, in particular
the key is always absent from the KnowledgeBase. -/
theorem getNextQuestion_spec (ud : UserData) (d : List String) (l : String) (q : Question)
    (h : getNextQuestion ud d l = some q) :
    (q.key = "filing_status" ∧ ud.filing_status = none) ∨
    (q.key = "dependents" ∧ ud.dependents = none) ∨
    (q.key = "zip_code" ∧ ud.zip_code = none) ∨
    (q.key = "gig_method" ∧ ud.gig_method = none) ∨
    (q.key = "miles" ∧ ud.gig_method = some "Standard Mileage Rate" ∧ ud.miles = none) ∨
    (q.key = "phone_percent" ∧ ud.gig_method = some "Actual Expenses" ∧ ud.phone_percent = none) ∨
    (q.key = "home_office_sqft" ∧ ud.gig_method = some "Actual Expenses" ∧
      ud.home_office_sqft = none) ∨
    (q.key = "state_specific" ∧ ud.state_specific = none) := by
  have hstate : ∀ h' : (if (pyStartsWith (ud.zip_code.getD "") "9" ||
        pyStartsWith (ud.zip_code.getD "") "8") && ud.state_specific.isNone then
        some (⟨"state_specific", questionText l "state_specific",
          "yes_no", []⟩ : Question) else none) = some q,
      q.key = "state_specific" ∧ ud.state_specific = none := by
    intro h'
    by_cases hF : ((pyStartsWith (ud.zip_code.getD "") "9" ||
        pyStartsWith (ud.zip_code.getD "") "8") && ud.state_specific.isNone) = true
    · rw [if_pos hF] at h'
      obtain rfl := Option.some.inj h'
      have hF2 : ud.state_specific.isNone = true := by
        simp only [Bool.and_eq_true] at hF
        exact hF.2
      exact ⟨rfl, Option.isNone_iff_eq_none.mp hF2⟩
    · rw [if_neg hF] at h'
      exact absurd h' (by simp)
  unfold getNextQuestion at h
  by_cases h1 : ud.filing_status.isNone = true
  · rw [if_pos h1] at h
    obtain rfl := Option.some.inj h
    exact Or.inl ⟨rfl, Option.isNone_iff_eq_none.mp h1⟩
  rw [if_neg h1] at h
  by_cases h2 : ud.dependents.isNone = true
  · rw [if_pos h2] at h
    obtain rfl := Option.some.inj h
    exact Or.inr (Or.inl ⟨rfl, Option.isNone_iff_eq_none.mp h2⟩)
  rw [if_neg h2] at h
  by_cases h3 : ud.zip_code.isNone = true
  · rw [if_pos h3] at h
    obtain rfl := Option.some.inj h
    exact Or.inr (Or.inr (Or.inl ⟨rfl, Option.isNone_iff_eq_none.mp h3⟩))
  rw [if_neg h3] at h
  dsimp only at h
  by_cases hA : (d.any (fun s => pyIn "1099" (pyLower s))) = true
  · rw [if_pos hA] at h
    by_cases hB : ud.gig_method.isNone = true
    · rw [if_pos hB] at h
      dsimp only at h
      obtain rfl := Option.some.inj h
      exact Or.inr (Or.inr (Or.inr (Or.inl ⟨rfl, Option.isNone_iff_eq_none.mp hB⟩)))
    rw [if_neg hB] at h
    by_cases hC : ud.gig_method = some "Standard Mileage Rate"
    · rw [if_pos hC] at h
      by_cases hD : ud.miles.isNone = true
      · rw [if_pos hD] at h
        dsimp only at h
        obtain rfl := Option.some.inj h
        exact Or.inr (Or.inr (Or.inr (Or.inr (Or.inl
          ⟨rfl, hC, Option.isNone_iff_eq_none.mp hD⟩))))
      · rw [if_neg hD] at h
        dsimp only at h
        exact Or.inr (Or.inr (Or.inr (Or.inr (Or.inr (Or.inr (Or.inr (hstate h)))))))
    rw [if_neg hC] at h
    by_cases hE : ud.gig_method = some "Actual Expenses"
    · rw [if_pos hE] at h
      simp only [expenseQuestions, List.findSome?_cons] at h
      have hk1 : hasKey ud "phone_percent" = ud.phone_percent.isSome := by
        simp [hasKey]
      have hk2 : hasKey ud "home_office_sqft" = ud.home_office_sqft.isSome := by
        simp [hasKey]
      rw [hk1, hk2] at h
      by_cases hP : ud.phone_percent.isSome = true
      · rw [if_pos hP] at h
        by_cases hH : ud.home_office_sqft.isSome = true
        · rw [if_pos hH] at h
          simp only [List.findSome?_nil] at h
          try dsimp only at h
          exact Or.inr (Or.inr (Or.inr (Or.inr (Or.inr (Or.inr (Or.inr (hstate h)))))))
        · rw [if_neg hH] at h
          dsimp only at h
          obtain rfl := Option.some.inj h
          refine Or.inr (Or.inr (Or.inr (Or.inr (Or.inr (Or.inr (Or.inl ⟨rfl, hE, ?_⟩))))))
          exact Option.not_isSome_iff_eq_none.mp hH
      · rw [if_neg hP] at h
        dsimp only at h
        obtain rfl := Option.some.inj h
        refine Or.inr (Or.inr (Or.inr (Or.inr (Or.inr (Or.inl ⟨rfl, hE, ?_⟩)))))
        exact Option.not_isSome_iff_eq_none.mp hP
    · rw [if_neg hE] at h
      dsimp only at h
      exact Or.inr (Or.inr (Or.inr (Or.inr (Or.inr (Or.inr (Or.inr (hstate h)))))))
  · rw [if_neg hA] at h
    dsimp only at h
    exact Or.inr (Or.inr (Or.inr (Or.inr (Or.inr (Or.inr (Or.inr (hstate h)))))))

/-- From the empty KnowledgeBase, with every answer accepted, the key
sequence is exactly base questions, then the gig block, then the
state-specific question, as predicted by `expectedTrace`. Fuel 10 exceeds
the seven possible questions, so the run ends at the no-question
sentinel. -/
theorem runQA_trace (a : String → String) (d : List String) (l : String) :
    runQA a d l 10 emptyUserData = expectedTrace a d := by
  by_cases hA : (d.any (fun s => pyIn "1099" (pyLower s))) = true
  · by_cases hm1 : a "gig_method" = "Standard Mileage Rate"
    · by_cases hz : (pyStartsWith (a "zip_code") "9" || pyStartsWith (a "zip_code") "8") = true
      · simp [runQA, getNextQuestion, processAnswer, emptyUserData, expectedTrace,
          gigFollowups, hA, hm1, hz, expenseQuestions, hasKey]
      · simp [runQA, getNextQuestion, processAnswer, emptyUserData, expectedTrace,
          gigFollowups, hA, hm1, hz, expenseQuestions, hasKey]
    · by_cases hm2 : a "gig_method" = "Actual Expenses"
      · by_cases hz : (pyStartsWith (a "zip_code") "9" || pyStartsWith (a "zip_code") "8") = true
        · simp [runQA, getNextQuestion, processAnswer, emptyUserData, expectedTrace,
            gigFollowups, hA, hm1, hm2, hz, expenseQuestions, hasKey]
        · simp [runQA, getNextQuestion, processAnswer, emptyUserData, expectedTrace,
            gigFollowups, hA, hm1, hm2, hz, expenseQuestions, hasKey]
      · by_cases hz : (pyStartsWith (a "zip_code") "9" || pyStartsWith (a "zip_code") "8") = true
        · simp [runQA, getNextQuestion, processAnswer, emptyUserData, expectedTrace,
            gigFollowups, hA, hm1, hm2, hz, expenseQuestions, hasKey]
        · simp [runQA, getNextQuestion, processAnswer, emptyUserData, expectedTrace,
            gigFollowups, hA, hm1, hm2, hz, expenseQuestions, hasKey]
  · by_cases hz : (pyStartsWith (a "zip_code") "9" || pyStartsWith (a "zip_code") "8") = true
    · simp [runQA, getNextQuestion, processAnswer, emptyUserData, expectedTrace,
        gigFollowups, hA, hz, expenseQuestions, hasKey]
    · simp [runQA, getNextQuestion, processAnswer, emptyUserData, expectedTrace,
        gigFollowups, hA, hz, expenseQuestions, hasKey]

/-- Claim C2: (1) from the empty KnowledgeBase with always-accepted
answers, the question keys appear in exactly the claimed priority order —
`filing_status, dependents, zip_code`, then (iff some document type
contains `1099`) `gig_method` and its method-dependent follow-ups, then
(iff the zip answer starts with 9 or 8) `state_specific`, then the
`None` sentinel; and (2) for every KnowledgeBase, `get_next_question`
never returns a key it already contains. -/
theorem claim_C2 :
    (∀ (answers : String → String) (docTypes : List String) (lang : String),
      runQA answers docTypes lang 10 emptyUserData = expectedTrace answers docTypes) ∧
    (∀ (ud : UserData) (docTypes : List String) (lang : String) (q : Question),
      getNextQuestion ud docTypes lang = some q → hasKey ud q.key = false) := by
  constructor
  · exact runQA_trace
  · intro ud docTypes lang q h
    rcases getNextQuestion_spec ud docTypes lang q h with
      ⟨hk, hf⟩ | ⟨hk, hf⟩ | ⟨hk, hf⟩ | ⟨hk, hf⟩ | ⟨hk, _, hf⟩ | ⟨hk, _, hf⟩ | ⟨hk, _, hf⟩ | ⟨hk, hf⟩ <;>
      rw [hk] <;> simp [hasKey, hf]

/-- Witness for `claim_C2` (part 2) at a concrete mid-session state where
the next question is `miles`. -/
theorem claim_C2_witness : hasKey gigUserData "miles" = false :=
  claim_C2.2 gigUserData ["1099-nec"] "en"
    ⟨"miles", "How many business miles did you drive this year?", "number", []⟩ (by rfl)

/-- Claim C7, as stated, is false: `'abcde'` contains no digit at all,
yet `validate_answer('zip_code', 'abcde')` accepts it — the code counts
characters after hyphen removal, not digits. -/
theorem claim_C7_counterexample :
    (validateAnswer "zip_code" "abcde").1 = true ∧ digitCountNoHyphens "abcde" < 5 := by
  decide

/-- Claim C7 amended: `validate_answer('zip_code', a)` accepts iff the
hyphen-stripped answer has at least 5 *characters* (of any kind), and the
message component is always the fixed ZIP error text. -/
theorem claim_C7_amended (answer : String) :
    ((validateAnswer "zip_code" answer).1 = true ↔ 5 ≤ (stripHyphens answer).length) ∧
    (validateAnswer "zip_code" answer).2 = "Please enter a valid ZIP code" := by
  unfold validateAnswer
  rw [if_pos rfl]
  exact ⟨by simp, rfl⟩

/-- Claim C10: `miles` is asked only when the stored `gig_method` is
exactly `'Standard Mileage Rate'`; `phone_percent`/`home_office_sqft`
only when it is exactly `'Actual Expenses'`; and `process_answer` stores
the `gig_method` answer verbatim (no translation or normalization), so
any other stored value — e.g. the Spanish option strings — skips every
gig follow-up. -/
theorem claim_C10 :
    (∀ (ud : UserData) (docTypes : List String) (lang : String) (q : Question),
      getNextQuestion ud docTypes lang = some q → q.key = "miles" →
        ud.gig_method = some "Standard Mileage Rate") ∧
    (∀ (ud : UserData) (docTypes : List String) (lang : String) (q : Question),
      getNextQuestion ud docTypes lang = some q →
        q.key = "phone_percent" ∨ q.key = "home_office_sqft" →
        ud.gig_method = some "Actual Expenses") ∧
    (∀ (answer : String) (ud : UserData),
      (processAnswer "gig_method" answer ud).gig_method = some answer) := by
  refine ⟨?_, ?_, ?_⟩
  · intro ud docTypes lang q h hk
    rcases getNextQuestion_spec ud docTypes lang q h with
      ⟨hq, _⟩ | ⟨hq, _⟩ | ⟨hq, _⟩ | ⟨hq, _⟩ | ⟨_, hg, _⟩ | ⟨hq, _, _⟩ | ⟨hq, _, _⟩ | ⟨hq, _⟩
    · rw [hq] at hk; exact absurd hk (by decide)
    · rw [hq] at hk; exact absurd hk (by decide)
    · rw [hq] at hk; exact absurd hk (by decide)
    · rw [hq] at hk; exact absurd hk (by decide)
    · exact hg
    · rw [hq] at hk; exact absurd hk (by decide)
    · rw [hq] at hk; exact absurd hk (by decide)
    · rw [hq] at hk; exact absurd hk (by decide)
  · intro ud docTypes lang q h hk
    rcases getNextQuestion_spec ud docTypes lang q h with
      ⟨hq, _⟩ | ⟨hq, _⟩ | ⟨hq, _⟩ | ⟨hq, _⟩ | ⟨hq, _, _⟩ | ⟨_, hg, _⟩ | ⟨_, hg, _⟩ | ⟨hq, _⟩ <;>
      first
      | exact hg
      | (rcases hk with hk | hk <;> rw [hq] at hk <;> exact absurd hk (by decide))
  · intro answer ud
    simp [processAnswer]

/-- Witness for `claim_C10` (first conjunct) at the concrete state where
`miles` is the next question. -/
theorem claim_C10_witness : gigUserData.gig_method = some "Standard Mileage Rate" :=
  claim_C10.1 gigUserData ["1099-nec"] "en"
    ⟨"miles", "How many business miles did you drive this year?", "number", []⟩ (by rfl) rfl

end TaxHelp
